import Mathlib

/-!
Verification of craigds/pep8 (pep8.py).

Python strings are modelled as lists of characters (`Str`); byte strings
(needed for the line-length check, which counts bytes before decoding) are
modelled as lists of naturals. Each definition carries a reference to the
lines of pep8.py it is translated from.
-/

namespace Pep8

/-- Python strings modelled as lists of characters. -/
abbrev Str := List Char

/-- The apostrophe character (code point 39). -/
def squote : Char := Char.ofNat 39

/-- The backquote character (code point 96). -/
def bquote : Char := Char.ofNat 96

/-- Characters stripped by Python `str.strip()` and friends. -/
def pySpaceChar (c : Char) : Bool :=
  c = ' ' || c = '\t' || c = '\n' || c = '\r' || c = Char.ofNat 11 || c = Char.ofNat 12

/-- Python `str.lstrip()`. -/
def pyLstrip (s : Str) : Str := s.dropWhile pySpaceChar

/-- Python `str.rstrip()`. -/
def pyRstrip (s : Str) : Str := (s.reverse.dropWhile pySpaceChar).reverse

/-- Python `str.strip()`. -/
def pyStripAll (s : Str) : Str := pyLstrip (pyRstrip s)

/-- Python substring containment: the binary `in` operator on strings. -/
def pyInStr (needle : Str) : Str → Bool
  | [] => needle.isEmpty
  | h :: t => needle.isPrefixOf (h :: t) || pyInStr needle t

/-- Python `str.find`: index of the first occurrence, `none` when absent. -/
def pyFind (needle : Str) : Str → Option Nat
  | [] => if needle.isEmpty then some 0 else none
  | h :: t => if needle.isPrefixOf (h :: t) then some 0 else (pyFind needle t).map (· + 1)

/-- Fetch a source line from the list of lines, defaulting to the empty line. -/
def pyGet (lines : List Str) (i : Nat) : Str := lines.getD i []

/-- Decimal rendering of a natural, as used by Python `%d` formatting. -/
def natStr (n : Nat) : Str := (Nat.repr n).data

/-! ## ignore_code (pep8.py lines 1377-1387) -/

/-- pep8.py 1377-1387: `ignore_code(code)`. Returns `false` (report) when some
`select` entry is a prefix of the code; otherwise returns whether some `ignore`
entry is a prefix of the code (falling off the end returns Python `None`,
which is falsy, hence `false`). -/
def ignore_code (select ignore : List Str) (code : Str) : Bool :=
  if select.any (fun s => s.isPrefixOf code) then false
  else ignore.any (fun i => i.isPrefixOf code)

/-- The reporting condition exactly as claim C1 words it: reported iff some
`select` prefix matches, or (`select` is empty and no `ignore` prefix
matches). Stated from the spec's words, to be compared with `ignore_code`. -/
def c1_spec_reported (select ignore : List Str) (code : Str) : Prop :=
  (∃ s ∈ select, s.isPrefixOf code = true) ∨
    (select = [] ∧ ∀ i ∈ ignore, ¬ i.isPrefixOf code = true)

/-! ## report_error (pep8.py lines 1291-1318) -/

/-- The option fields read by `report_error`. -/
structure Options where
  select : List Str
  ignore : List Str
  quiet : Nat
  repeat_opt : Bool
  show_source : Bool
  show_pep8 : Bool
deriving DecidableEq

/-- The mutable state touched by `report_error`: the global per-code counters
and first-seen messages, the per-file error count, and everything printed. -/
structure ErrState where
  counters : List (Str × Nat)
  messages : List (Str × Str)
  file_errors : Nat
  output : List Str
deriving DecidableEq

/-- Association-list lookup (`code in options.counters` / `options.counters[code]`). -/
def alist_get (l : List (Str × Nat)) (k : Str) : Option Nat :=
  (l.find? (fun p => p.1 == k)).map (fun p => p.2)

/-- Association-list increment (`options.counters[code] += 1`). -/
def alist_incr (l : List (Str × Nat)) (k : Str) : List (Str × Nat) :=
  l.map (fun p => if p.1 == k then (p.1, p.2 + 1) else p)

/-- The `"%s:%s:%d: %s"` message of pep8.py line 1310-1312. -/
def report_line (filename : Str) (row col : Nat) (text : Str) : Str :=
  filename ++ ":".data ++ natStr row ++ ":".data ++ natStr col ++ ": ".data ++ text

/-- Python `doc.lstrip(chr(10)).rstrip()` as used on pep8.py line 1318. -/
def pyLstripNlRstrip (s : Str) : Str := pyRstrip (s.dropWhile (fun c => c = '\n'))

/-- pep8.py 1291-1318: `Checker.report_error`. Returns the updated state. -/
def report_error (opts : Options) (filename : Str) (expected : List Str)
    (lines : List Str) (st : ErrState) (line_number line_offset offset : Nat)
    (text : Str) (check_doc : Str) : ErrState :=
  let code := text.take 4
  if ignore_code opts.select opts.ignore code then st
  else
    let st :=
      if opts.quiet = 1 ∧ st.file_errors = 0 then
        { st with output := st.output ++ [filename] }
      else st
    let st :=
      if (alist_get st.counters code).isSome then
        { st with counters := alist_incr st.counters code }
      else
        { st with counters := st.counters ++ [(code, 1)],
                  messages := st.messages ++ [(code, text.drop 5)] }
    if opts.quiet ≠ 0 ∨ code ∈ expected then st
    else
      let st := { st with file_errors := st.file_errors + 1 }
      if alist_get st.counters code = some 1 ∨ opts.repeat_opt then
        let st := { st with output := st.output ++
          [report_line filename (line_offset + line_number) (offset + 1) text] }
        let st :=
          if opts.show_source then
            { st with output := st.output ++
              [pyRstrip (pyGet lines (line_number - 1)),
               List.replicate offset ' ' ++ ['^']] }
          else st
        if opts.show_pep8 then { st with output := st.output ++ [pyLstripNlRstrip check_doc] }
        else st
      else st

/-- Concrete options for the C2 counterexample: ignore everything in E2xx. -/
def c2_opts : Options :=
  { select := [], ignore := ["E2".data], quiet := 0, repeat_opt := false,
    show_source := false, show_pep8 := false }

/-- A fresh error state. -/
def err_state0 : ErrState := { counters := [], messages := [], file_errors := 0, output := [] }

/-! ## expand_indent (pep8.py lines 981-1005) -/

/-- pep8.py line 132. -/
def TAB_SIZE : Nat := 4

/-- The loop body of `expand_indent`: a tab advances to the next multiple of
`TAB_SIZE`, a space adds one, anything else stops the scan. -/
def expand_indent_aux (result : Nat) : Str → Nat
  | [] => result
  | c :: cs =>
    if c = '\t' then expand_indent_aux (result / TAB_SIZE * TAB_SIZE + TAB_SIZE) cs
    else if c = ' ' then expand_indent_aux (result + 1) cs
    else result

/-- pep8.py 981-1005: `expand_indent(line)`. -/
def expand_indent (line : Str) : Nat := expand_indent_aux 0 line

/-- A space or a tab, the indentation characters. -/
def isIndentChar (c : Char) : Bool := c = ' ' || c = '\t'

/-! ## missing_whitespace (pep8.py lines 456-481) -/

/-- The `"E231 missing whitespace after '%s'"` message. -/
def e231_msg (ch : Char) : Str :=
  "E231 missing whitespace after ".data ++ [squote, ch, squote]

/-- pep8.py 471-481: the loop of `missing_whitespace.check`, iterating `index`
over `range(len(line) - 1)`; the second list argument is `line` with the first
`index` characters dropped. -/
def mw_aux (line : Str) : Nat → Str → Option (Nat × Str)
  | _, [] => none
  | _, [_] => none
  | index, ch :: next :: rest =>
    if (ch = ',' ∨ ch = ';' ∨ ch = ':') ∧ ¬(next = ' ' ∨ next = '\t') then
      if ch = ':' ∧ (line.take index).count '[' > (line.take index).count ']' then
        mw_aux line (index + 1) (next :: rest)
      else if ch = ',' ∧ (next = ')' ∨ next = ']') then
        mw_aux line (index + 1) (next :: rest)
      else some (index, e231_msg ch)
    else mw_aux line (index + 1) (next :: rest)

/-- pep8.py 471-481: `missing_whitespace.check(logical_line)`. -/
def missing_whitespace_check (logical_line : Str) : Option (Nat × Str) :=
  mw_aux logical_line 0 logical_line

/-- The condition under which index `i` of a logical line is an E231
violation site: a `,` `;` or `:` not followed by a space or tab, which is
neither a slice colon (more `[` than `]` before it) nor a comma directly
before a closing `)` or `]`. -/
def e231_viol (line : Str) (i : Nat) : Prop :=
  i + 1 < line.length ∧
  (line.getD i ' ' = ',' ∨ line.getD i ' ' = ';' ∨ line.getD i ' ' = ':') ∧
  ¬(line.getD (i + 1) ' ' = ' ' ∨ line.getD (i + 1) ' ' = '\t') ∧
  ¬(line.getD i ' ' = ':' ∧ (line.take i).count '[' > (line.take i).count ']') ∧
  ¬(line.getD i ' ' = ',' ∧ (line.getD (i + 1) ' ' = ')' ∨ line.getD (i + 1) ' ' = ']'))

instance (line : Str) (i : Nat) : Decidable (e231_viol line i) := by
  unfold e231_viol; infer_instance

/-! ## maximum_line_length (pep8.py lines 314-339) -/

/-- pep8.py line 117. -/
def MAX_LINE_LENGTH : Nat := 120

/-- Whitespace bytes stripped by `str.rstrip()` on a Python 2 byte string. -/
def pyByteSpace (b : Nat) : Bool := b = 32 || b = 9 || b = 10 || b = 13 || b = 11 || b = 12

/-- `str.rstrip()` on a byte string. -/
def rstrip_bytes (l : List Nat) : List Nat := (l.reverse.dropWhile pyByteSpace).reverse

/-- A UTF-8 continuation byte. -/
def utf8Cont (b : Nat) : Bool := 0x80 ≤ b && b ≤ 0xBF

/-- Strict UTF-8 decoding of a byte sequence to a list of code points, as
performed by Python's `bytes.decode(chr(117) ++ ...)`; rejects overlong forms,
surrogates and code points above 0x10FFFF. -/
def utf8_decode : List Nat → Option (List Nat)
  | [] => some []
  | b :: rest =>
    if b ≤ 0x7F then (utf8_decode rest).map (b :: ·)
    else if 0xC2 ≤ b ∧ b ≤ 0xDF then
      match rest with
      | c1 :: rest1 =>
        if utf8Cont c1 then
          (utf8_decode rest1).map (((b - 0xC0) * 0x40 + (c1 - 0x80)) :: ·)
        else none
      | [] => none
    else if 0xE0 ≤ b ∧ b ≤ 0xEF then
      match rest with
      | c1 :: c2 :: rest2 =>
        if (if b = 0xE0 then 0xA0 else 0x80) ≤ c1 ∧ c1 ≤ (if b = 0xED then 0x9F else 0xBF) ∧
            utf8Cont c2 then
          (utf8_decode rest2).map
            (((b - 0xE0) * 0x1000 + (c1 - 0x80) * 0x40 + (c2 - 0x80)) :: ·)
        else none
      | _ => none
    else if 0xF0 ≤ b ∧ b ≤ 0xF4 then
      match rest with
      | c1 :: c2 :: c3 :: rest3 =>
        if (if b = 0xF0 then 0x90 else 0x80) ≤ c1 ∧ c1 ≤ (if b = 0xF4 then 0x8F else 0xBF) ∧
            utf8Cont c2 ∧ utf8Cont c3 then
          (utf8_decode rest3).map
            (((b - 0xF0) * 0x40000 + (c1 - 0x80) * 0x1000 + (c2 - 0x80) * 0x40 + (c3 - 0x80)) :: ·)
        else none
      | _ => none
    else none

/-- pep8.py 328-337: the reported length of the right-stripped line — the
byte length, replaced by the decoded character count when the byte length
exceeds the limit and the line decodes as UTF-8 (a decode error leaves the
byte length standing). -/
def mll_length (line : List Nat) : Nat :=
  if line.length > MAX_LINE_LENGTH then
    match utf8_decode line with
    | some cps => cps.length
    | none => line.length
  else line.length

/-- pep8.py 327-339: `maximum_line_length.check(physical_line)`. The line is
a Python 2 byte string. -/
def maximum_line_length_check (physical_line : List Nat) : Option (Nat × Str) :=
  if mll_length (rstrip_bytes physical_line) > MAX_LINE_LENGTH then
    some (MAX_LINE_LENGTH, "E501 line too long (".data ++
      natStr (mll_length (rstrip_bytes physical_line)) ++ " characters)".data)
  else none

/-! ## The four W60x rules (pep8.py lines 900-961) -/

/-- A logical-line rule: its violation codes, its check operation, and its
optional fix operation (`none` models the absence of a `fix` method, as
tested by `hasattr(check, chr(102) ...)` on pep8.py lines 1107 and 1183). -/
structure LogicalRule where
  codes : List Str
  check : Str → Option (Nat × Str)
  fix : Option (Str → Str)

/-- A `\w` word character of the RAISE_COMMA_REGEX. -/
def isWordChar (c : Char) : Bool := c.isAlphanum || c = '_'

/-- pep8.py 120: deterministic parse of the anchored regex
`raise\s+(\w+)\s*,\s*(.*)\s*` against the start of the line. Returns the
start of group 1, the two groups, and the rest of the line after the match
(the greedy `.*` stops at a newline; the trailing `\s*` then swallows
whitespace). The greedy scan is equivalent to the regex because no
backtracking alternative can succeed when the greedy one fails. -/
def raise_comma_match (l : Str) : Option (Nat × Str × Str × Str) :=
  if "raise".data.isPrefixOf l then
    let r0 := l.drop 5
    let ws1 := r0.takeWhile pySpaceChar
    if ws1 = [] then none
    else
      let r1 := r0.drop ws1.length
      let g1 := r1.takeWhile isWordChar
      if g1 = [] then none
      else
        let r2 := r1.drop g1.length
        let r3 := r2.drop (r2.takeWhile pySpaceChar).length
        match r3 with
        | c :: r4 =>
          if c = ',' then
            let r5 := r4.drop (r4.takeWhile pySpaceChar).length
            let g2 := r5.takeWhile (fun ch => ch ≠ '\n')
            let r6 := r5.drop g2.length
            some (5 + ws1.length, g1, g2, r6.drop (r6.takeWhile pySpaceChar).length)
          else none
        | [] => none
  else none

/-- pep8.py 933-934: `RAISE_COMMA_REGEX.sub(...)`, replacing every match by
`raise %s(%s)` of its groups; fuel-driven scan over the line (the fuel, the
line length, bounds the number of scan positions). -/
def raise_comma_sub_aux : Nat → Str → Str
  | 0, l => l
  | _ + 1, [] => []
  | fuel + 1, c :: rest =>
    match raise_comma_match (c :: rest) with
    | some (_, g1, g2, remaining) =>
      "raise ".data ++ g1 ++ ['('] ++ g2 ++ [')'] ++ raise_comma_sub_aux fuel remaining
    | none => c :: raise_comma_sub_aux fuel rest

/-- The fix of `python_3000_raise_comma`. -/
def raise_comma_sub (l : Str) : Str := raise_comma_sub_aux l.length l

/-- The W601 message. -/
def w601_msg : Str :=
  "W601 .has_key() is deprecated, use ".data ++ [squote, 'i', 'n', squote]

/-- pep8.py 900-913: the `python_3000_has_key` rule. Its class defines no
`fix` method. -/
def python_3000_has_key : LogicalRule :=
  { codes := ["W601".data],
    check := fun logical_line =>
      (pyFind ".has_key(".data logical_line).map (fun pos => (pos, w601_msg)),
    fix := none }

/-- The W602 message. -/
def w602_msg : Str := "W602 deprecated form of raising exception".data

/-- pep8.py 916-934: the `python_3000_raise_comma` rule, with its fix. -/
def python_3000_raise_comma : LogicalRule :=
  { codes := ["W602".data],
    check := fun logical_line =>
      (raise_comma_match logical_line).map (fun r => (r.1, w602_msg)),
    fix := some raise_comma_sub }

/-- The W603 message. -/
def w603_msg : Str :=
  "W603 ".data ++ [squote, '<', '>', squote] ++ " is deprecated, use ".data ++
    [squote, '!', '=', squote]

/-- pep8.py 937-948: the `python_3000_not_equal` rule. No `fix` method. -/
def python_3000_not_equal : LogicalRule :=
  { codes := ["W603".data],
    check := fun logical_line =>
      (pyFind ['<', '>'] logical_line).map (fun pos => (pos, w603_msg)),
    fix := none }

/-- The W604 message. -/
def w604_msg : Str :=
  "W604 backticks are deprecated, use ".data ++
    [squote, 'r', 'e', 'p', 'r', '(', ')', squote]

/-- pep8.py 951-961: the `python_3000_backticks` rule. No `fix` method. -/
def python_3000_backticks : LogicalRule :=
  { codes := ["W604".data],
    check := fun logical_line =>
      (pyFind [bquote] logical_line).map (fun pos => (pos, w604_msg)),
    fix := none }

/-! ## Tokens and build_tokens_line (pep8.py lines 1113-1146) -/

/-- The token kinds of the `tokenize` module used by pep8.py. -/
inductive TokType where
  | NAME | OP | NUMBER | STRING | COMMENT | NL | NEWLINE | INDENT | DEDENT
  | ENDMARKER | ERRORTOKEN
deriving DecidableEq

/-- A token `(kind, text, start(row,col), end(row,col), source_line)`; rows
are 1-based, columns 0-based, as produced by `tokenize.generate_tokens`. -/
structure Tok where
  type : TokType
  text : Str
  startRow : Nat
  startCol : Nat
  endRow : Nat
  endCol : Nat
  srcLine : Str
deriving DecidableEq

/-- pep8.py 139-140: `SKIP_TOKENS`. -/
def SKIP_TOKENS : List TokType := [TokType.NL, TokType.INDENT, TokType.DEDENT, TokType.NEWLINE]

/-- pep8.py 1019-1025: the `start` cursor of `mute_string` — one past the
first quote character matching the string's last character (string modifier
letters such as `u` and `r` sit before it), or 1 when neither quote ends the
text. -/
def mute_start (text : Str) : Nat :=
  if ['"'].isSuffixOf text then 1 + (pyFind ['"'] text).getD 0
  else if [squote].isSuffixOf text then 1 + (pyFind [squote] text).getD 0
  else 1

/-- pep8.py 1027: does the text end in triple quotes? -/
def mute_triple (text : Str) : Bool :=
  ['"', '"', '"'].isSuffixOf text || [squote, squote, squote].isSuffixOf text

/-- pep8.py 1008-1030: `mute_string(text)`, replacing the interior of a string
literal with `x` characters while keeping the delimiters and any modifier
letters (`start` grows and `end` shrinks by 2 for triple quotes). All index
arithmetic is on naturals; for every token the tokenizer can produce this
agrees with the Python slicing. -/
def mute_string (text : Str) : Str :=
  if mute_triple text then
    text.take (mute_start text + 2) ++
      List.replicate (text.length - 1 - 2 - (mute_start text + 2)) 'x' ++
      text.drop (text.length - 1 - 2)
  else
    text.take (mute_start text) ++
      List.replicate (text.length - 1 - mute_start text) 'x' ++
      text.drop (text.length - 1)

/-- The `'{[('` string of pep8.py line 1133. -/
def OPEN_BRACKETS : Str := ['{', '[', '(']

/-- The `'}])'` string of pep8.py line 1134. -/
def CLOSE_BRACKETS : Str := ['}', ']', ')']

/-- pep8.py 1132: `self.lines[end_line - 1][end - 1]`, the source character
just before the previous token's end (Python index `-1` wraps to the last
character of the line; a lookup that would raise IndexError yields NUL). -/
def join_prev_char (lines : List Str) (previous : Tok) : Char :=
  let srcLine := pyGet lines (previous.endRow - 1)
  if previous.endCol = 0 then srcLine.getD (srcLine.length - 1) (Char.ofNat 0)
  else srcLine.getD (previous.endCol - 1) (Char.ofNat 0)

/-- pep8.py 1128-1140: the text inserted between the previous kept token and
the current one (whose possibly muted text is `text`): a single space across
a row break unless suppressed by the bracket tests, the verbatim source gap
within a row, nothing otherwise. -/
def join_sep (lines : List Str) (previous token : Tok) (text : Str) : Str :=
  if previous.endRow ≠ token.startRow then
    if join_prev_char lines previous = ',' ∨
        (¬ OPEN_BRACKETS.contains (join_prev_char lines previous) ∧
          ¬ pyInStr text CLOSE_BRACKETS) then
      [' ']
    else []
  else if previous.endCol ≠ token.startCol then
    ((pyGet lines (previous.endRow - 1)).drop previous.endCol).take
      (token.startCol - previous.endCol)
  else []

/-- The loop state of `build_tokens_line`: the offset map, the pieces of the
logical line, the running length, the previous kept token, and the original
texts of muted strings. -/
structure BuildState where
  mapping : List (Nat × Tok)
  logical : List Str
  length : Nat
  previous : Option Tok
  muted : List Str
deriving DecidableEq

/-- pep8.py 1121-1144: one iteration of the `build_tokens_line` loop. -/
def build_step (lines : List Str) (st : BuildState) (token : Tok) : BuildState :=
  if token.type ∈ SKIP_TOKENS then st
  else
    let muted := if token.type = TokType.STRING then st.muted ++ [token.text] else st.muted
    let text := if token.type = TokType.STRING then mute_string token.text else token.text
    let sep :=
      match st.previous with
      | none => []
      | some previous => join_sep lines previous token text
    let length := st.length + sep.length
    { mapping := st.mapping ++ [(length, token)],
      logical := st.logical ++ [sep, text],
      length := length + text.length,
      previous := some token,
      muted := muted }

/-- The output of `build_tokens_line`: the offset map, the finished logical
line, and the muted string texts. -/
structure BuildResult where
  mapping : List (Nat × Tok)
  logical_line : Str
  muted : List Str
deriving DecidableEq

/-- pep8.py 1113-1146: `Checker.build_tokens_line`. -/
def build_tokens_line (lines : List Str) (tokens : List Tok) : BuildResult :=
  let st := tokens.foldl (build_step lines) ⟨[], [], 0, none, []⟩
  ⟨st.mapping, pyRstrip st.logical.flatten, st.muted⟩

/-! ## The blank_lines rule and its driver (pep8.py 347-413, 1148-1283) -/

/-- The context fields requested by `blank_lines.check` and `blank_lines.fix`. -/
structure BLCtx where
  logical_line : Str
  blank_lines : Nat
  indent_level : Nat
  line_number : Nat
  previous_logical : Str
  previous_indent_level : Nat
  blank_lines_before_comment : Nat
deriving DecidableEq

/-- pep8.py 123: `DOCSTRING_REGEX.match`, the anchored regex for an optional
`u`, an optional `r`, then a quote character. -/
def docstring_match (s : Str) : Bool :=
  let s1 := match s with | 'u' :: t => t | _ => s
  let s2 := match s1 with | 'r' :: t => t | _ => s1
  match s2 with
  | c :: _ => c = '"' || c = squote
  | [] => false

/-- pep8.py 370-389: `blank_lines.check`. -/
def blank_lines_check (c : BLCtx) : Option (Nat × Str) :=
  if c.line_number = 1 then none
  else
    let max_blank_lines := max c.blank_lines c.blank_lines_before_comment
    if "@".data.isPrefixOf c.previous_logical then
      if max_blank_lines ≠ 0 then
        some (0, "E304 blank lines found after function decorator".data)
      else none
    else if max_blank_lines > 2 ∨ (c.indent_level ≠ 0 ∧ max_blank_lines = 2) then
      some (0, "E303 too many blank lines (".data ++ natStr max_blank_lines ++ ")".data)
    else if "def ".data.isPrefixOf c.logical_line ∨ "class ".data.isPrefixOf c.logical_line ∨
        "@".data.isPrefixOf c.logical_line then
      if c.indent_level ≠ 0 then
        if ¬(max_blank_lines ≠ 0 ∨ c.previous_indent_level < c.indent_level ∨
            docstring_match c.previous_logical) then
          some (0, "E301 expected 1 blank line, found 0".data)
        else none
      else if max_blank_lines ≠ 2 then
        some (0, "E302 expected 2 blank lines, found ".data ++ natStr max_blank_lines)
      else none
    else none

/-- pep8.py 391-413: `blank_lines.fix`; its only effect is assigning
`checker.blank_lines`, so it returns the new value of that field. -/
def blank_lines_fix (c : BLCtx) (current : Nat) : Nat :=
  if c.line_number = 1 then current
  else
    let expected_blank_lines := if c.indent_level ≠ 0 then 1 else 2
    let max_blank_lines := max c.blank_lines c.blank_lines_before_comment
    if "@".data.isPrefixOf c.previous_logical then
      if max_blank_lines ≠ 0 then 0 else current
    else if max_blank_lines > expected_blank_lines then
      min max_blank_lines expected_blank_lines
    else if "def ".data.isPrefixOf c.logical_line ∨ "class ".data.isPrefixOf c.logical_line ∨
        "@".data.isPrefixOf c.logical_line then
      if c.indent_level ≠ 0 then
        if ¬(max_blank_lines ≠ 0 ∨ c.previous_indent_level < c.indent_level ∨
            docstring_match c.previous_logical) then 1
        else current
      else if max_blank_lines ≠ 2 then 2
      else current
    else current

/-- pep8.py 1173-1180: translate a logical-line offset back to an original
`(row, col)` through the mapping (the loop keeps the last entry whose offset
is not past the requested one). -/
def map_offset (mapping : List (Nat × Tok)) (offset : Nat) : Nat × Nat :=
  mapping.foldl
    (fun acc p => if offset ≥ p.1 then (p.2.startRow, p.2.startCol + offset - p.1) else acc)
    (0, 0)

/-- pep8.py 1160-1163: the indent level of the logical line, from the prefix
of the first contributing token's source line before its start column. -/
def check_logical_indent (lines : List Str) (mapping : List (Nat × Tok)) : Nat :=
  match mapping with
  | [] => 0
  | (_, t0) :: _ => expand_indent ((pyGet lines (t0.startRow - 1)).take t0.startCol)

/-- Insert a natural into a sorted list. -/
def insert_sorted (n : Nat) : List Nat → List Nat
  | [] => [n]
  | m :: t => if n ≤ m then n :: m :: t else m :: insert_sorted n t

/-- Sort a list of naturals (insertion sort). -/
def sort_nat (l : List Nat) : List Nat := l.foldl (fun acc n => insert_sorted n acc) []

/-- pep8.py 1155-1159: the sorted set of 0-based physical line numbers touched
by the logical line's tokens. -/
def physical_rows (mapping : List (Nat × Tok)) : List Nat :=
  sort_nat (((mapping.map fun p : Nat × Tok => p.2.startRow - 1) ++
    (mapping.map fun p : Nat × Tok => p.2.endRow - 1)).dedup)

/-- Either a quote character. -/
def isQuoteChar (c : Char) : Bool := c = '"' || c = squote

/-- pep8.py 1192-1208: splice one muted string's original text back into the
logical line, scanning from the running index for the masked placeholder. -/
def restore_one (acc : Str × Nat) (muted_string : Str) : Str × Nat :=
  let logical := acc.1
  let str_modifiers := muted_string.takeWhile (fun c => !isQuoteChar c)
  let ms := muted_string.drop str_modifiers.length
  let q1 := ms.take 1
  let quotes := if ms.take 3 = q1 ++ q1 ++ q1 then ms.take 3 else q1
  let xs := ms.take quotes.length ++ List.replicate (ms.length - 2 * quotes.length) 'x' ++
    ms.drop (ms.length - quotes.length)
  let full := str_modifiers ++ ms
  let str_index := acc.2 + (pyFind (str_modifiers ++ xs) (logical.drop acc.2)).getD 0
  (logical.take str_index ++ full ++ logical.drop (str_index + full.length),
    str_index + full.length)

/-- pep8.py 1191-1208: restore all muted strings of the logical line. -/
def restore_muted (muted : List Str) (logical : Str) : Str :=
  (muted.foldl restore_one (logical, 0)).1

/-- pep8.py 1099-1100 restricted to the lines read so far: the first
indentation character seen in the first `n` physical lines, if any. -/
def indent_char_upto (lines : List Str) (n : Nat) : Option Char :=
  match (lines.take n).find? (fun l => !l.isEmpty && isIndentChar l.headI) with
  | some l => some l.headI
  | none => none

/-- The per-file state threaded through the `check_all` token loop. -/
structure CheckState where
  blank_lines : Nat
  blank_lines_before_comment : Nat
  previous_logical : Str
  indent_level : Nat
  line_number : Nat
  tokens : List Tok
  parens : Int
  comment : Option Str
  writer : Str
  violations : List (Nat × Nat × Str)
deriving DecidableEq

/-- pep8.py 1148-1221: `Checker.check_logical` with fixing enabled and the
dispatch list restricted to the `blank_lines` rule (the rule claim C5 is
about); a fired check is recorded as a raw `(row, col, text)` violation and
its fix is applied; the rewritten line (blank lines, indentation, restored
logical text) is appended to the writer, falling back to the original
physical lines for a statement spanning several rows. -/
def check_logical_bl (lines : List Str) (st : CheckState) : CheckState :=
  let b := build_tokens_line lines st.tokens
  match b.mapping with
  | [] => st
  | _ :: _ =>
    let rows := physical_rows b.mapping
    let previous_indent_level := st.indent_level
    let indent_level := check_logical_indent lines b.mapping
    let ctx : BLCtx := ⟨b.logical_line, st.blank_lines, indent_level, st.line_number,
      st.previous_logical, previous_indent_level, st.blank_lines_before_comment⟩
    let vb :=
      match blank_lines_check ctx with
      | some (offset, text) =>
        let rc := map_offset b.mapping offset
        (st.violations ++ [(rc.1, rc.2, text)], blank_lines_fix ctx st.blank_lines)
      | none => (st.violations, st.blank_lines)
    let ic := indent_char_upto lines st.line_number
    if rows.length = 1 then
      let logical := restore_muted b.muted b.logical_line
      let writer := st.writer ++ List.replicate vb.2 '\n' ++
        (match ic with
         | some c => List.replicate indent_level [c]
         | none => List.replicate indent_level "    ".data).flatten ++
        logical ++ ['\n']
      { st with
        previous_logical := logical,
        indent_level := indent_level,
        blank_lines := vb.2,
        comment := none,
        writer := writer,
        violations := vb.1 }
    else
      let first := rows.headI
      let last := rows.getLast?.getD 0
      let writer := st.writer ++ List.replicate vb.2 '\n' ++
        ((List.range (last + 1 - first)).map (fun i => pyGet lines (first + i))).flatten
      { st with
        previous_logical := b.logical_line,
        indent_level := indent_level,
        blank_lines := vb.2,
        writer := writer,
        violations := vb.1 }

/-- The `'([{'` string of pep8.py line 1250. -/
def OPEN_PARENS : Str := ['(', '[', '{']

/-- pep8.py 1223-1283: the token loop of `Checker.check_all` with fixing
enabled, dispatching the `blank_lines` rule; `line_number` tracks the rows
the tokenizer has consumed, which at each token is its end row. -/
def check_all_bl (lines : List Str) : List Tok → CheckState → CheckState
  | [], st => st
  | token :: rest, st0 =>
    let sta : CheckState :=
      { st0 with line_number := token.endRow, tokens := st0.tokens ++ [token] }
    let parens1 : Int :=
      if token.type = TokType.OP ∧ pyInStr token.text OPEN_PARENS then sta.parens + 1
      else sta.parens
    let parens : Int :=
      if token.type = TokType.OP ∧ pyInStr token.text CLOSE_BRACKETS then parens1 - 1
      else parens1
    let stb : CheckState := { sta with parens := parens }
    let stc : CheckState :=
      if token.type = TokType.NEWLINE ∧ parens = 0 then
        let st2 := check_logical_bl lines stb
        { st2 with blank_lines := 0, blank_lines_before_comment := 0, tokens := [] }
      else stb
    let std : CheckState :=
      if token.type = TokType.NL ∧ parens = 0 then
        let st3 : CheckState :=
          match stc.comment with
          | some c =>
            { stc with
              writer := stc.writer ++
                List.replicate stc.blank_lines_before_comment '\n' ++ c ++ ['\n'],
              comment := none,
              blank_lines_before_comment := 0 }
          | none => stc
        let st4 : CheckState :=
          if st3.tokens.length ≤ 1 then { st3 with blank_lines := st3.blank_lines + 1 }
          else st3
        { st4 with tokens := [] }
      else stc
    let ste : CheckState :=
      if token.type = TokType.COMMENT then
        let st5 : CheckState :=
          if pyStripAll (token.srcLine.take token.startCol) = [] then
            { std with
              blank_lines_before_comment :=
                max std.blank_lines std.blank_lines_before_comment,
              blank_lines := 0 }
          else std
        let st6 : CheckState :=
          if ['\n'].isSuffixOf token.text ∧ parens = 0 then { st5 with tokens := [] }
          else st5
        if st6.tokens.length = 1 then { st6 with comment := some (pyRstrip token.srcLine) }
        else st6
      else std
    check_all_bl lines rest ste

/-- The state at the start of a file (pep8.py 1227-1238). -/
def init_state : CheckState :=
  { blank_lines := 0, blank_lines_before_comment := 0, previous_logical := [],
    indent_level := 0, line_number := 0, tokens := [], parens := 0, comment := none,
    writer := [], violations := [] }

/-- Build a token from plain literals. -/
def mkTok (ty : TokType) (text : String) (sr sc er ec : Nat) (line : String) : Tok :=
  ⟨ty, text.data, sr, sc, er, ec, line.data⟩

/-- The four physical lines of the C5 scenario input. -/
def scenario_lines : List Str :=
  ["def a():\n".data, "    pass\n".data, "def b():\n".data, "    pass\n".data]

/-- The token stream the tokenizer produces for the C5 scenario input. -/
def scenario_tokens : List Tok :=
  [mkTok TokType.NAME "def" 1 0 1 3 "def a():\n",
   mkTok TokType.NAME "a" 1 4 1 5 "def a():\n",
   mkTok TokType.OP "(" 1 5 1 6 "def a():\n",
   mkTok TokType.OP ")" 1 6 1 7 "def a():\n",
   mkTok TokType.OP ":" 1 7 1 8 "def a():\n",
   mkTok TokType.NEWLINE "\n" 1 8 1 9 "def a():\n",
   mkTok TokType.INDENT "    " 2 0 2 4 "    pass\n",
   mkTok TokType.NAME "pass" 2 4 2 8 "    pass\n",
   mkTok TokType.NEWLINE "\n" 2 8 2 9 "    pass\n",
   mkTok TokType.DEDENT "" 3 0 3 0 "def b():\n",
   mkTok TokType.NAME "def" 3 0 3 3 "def b():\n",
   mkTok TokType.NAME "b" 3 4 3 5 "def b():\n",
   mkTok TokType.OP "(" 3 5 3 6 "def b():\n",
   mkTok TokType.OP ")" 3 6 3 7 "def b():\n",
   mkTok TokType.OP ":" 3 7 3 8 "def b():\n",
   mkTok TokType.NEWLINE "\n" 3 8 3 9 "def b():\n",
   mkTok TokType.INDENT "    " 4 0 4 4 "    pass\n",
   mkTok TokType.NAME "pass" 4 4 4 8 "    pass\n",
   mkTok TokType.NEWLINE "\n" 4 8 4 9 "    pass\n",
   mkTok TokType.DEDENT "" 5 0 5 0 "",
   mkTok TokType.ENDMARKER "" 5 0 5 0 ""]

end Pep8

namespace Pep8

/-! ## Shared helper lemmas -/

theorem expand_indent_aux_tab (r : Nat) (cs : Str) :
    expand_indent_aux r ('\t' :: cs) =
      expand_indent_aux (r / TAB_SIZE * TAB_SIZE + TAB_SIZE) cs := by
  simp [expand_indent_aux]

theorem expand_indent_aux_space (r : Nat) (cs : Str) :
    expand_indent_aux r (' ' :: cs) = expand_indent_aux (r + 1) cs := by
  simp [expand_indent_aux]

theorem expand_indent_aux_other (r : Nat) (cs : Str) (c : Char)
    (h : isIndentChar c = false) : expand_indent_aux r (c :: cs) = r := by
  simp only [isIndentChar, Bool.or_eq_false_iff, decide_eq_false_iff_not] at h
  simp [expand_indent_aux, h.1, h.2]

theorem expand_indent_aux_takeWhile (l : Str) : ∀ r : Nat,
    expand_indent_aux r l = expand_indent_aux r (l.takeWhile isIndentChar) := by
  induction l with
  | nil => intro r; rfl
  | cons c cs ih =>
    intro r
    by_cases ht : c = '\t'
    · subst ht
      rw [show List.takeWhile isIndentChar ('\t' :: cs) =
          '\t' :: cs.takeWhile isIndentChar from by simp [List.takeWhile_cons, isIndentChar]]
      rw [expand_indent_aux_tab, expand_indent_aux_tab]
      exact ih _
    · by_cases hs : c = ' '
      · subst hs
        rw [show List.takeWhile isIndentChar (' ' :: cs) =
            ' ' :: cs.takeWhile isIndentChar from by simp [List.takeWhile_cons, isIndentChar]]
        rw [expand_indent_aux_space, expand_indent_aux_space]
        exact ih _
      · have hind : isIndentChar c = false := by
          simp [isIndentChar, ht, hs]
        rw [show List.takeWhile isIndentChar (c :: cs) = [] from by
          simp [List.takeWhile_cons, hind]]
        rw [expand_indent_aux_other r cs c hind]
        rfl

theorem getD_zero_drop (l : Str) : ∀ (k : Nat) (d : Char),
    (l.drop k).getD 0 d = l.getD k d := by
  induction l with
  | nil => intro k d; cases k <;> rfl
  | cons a t ih =>
    intro k d
    cases k with
    | zero => rfl
    | succ k => simp only [List.drop_succ_cons, List.getD_cons_succ]; exact ih k d

theorem e231_viol_shift (line : Str) (k : Nat) (hvk : ¬ e231_viol line k) (i : Nat) :
    (k + 1 ≤ i ∧ e231_viol line i ∧ (∀ j, k + 1 ≤ j → j < i → ¬ e231_viol line j)) ↔
      (k ≤ i ∧ e231_viol line i ∧ (∀ j, k ≤ j → j < i → ¬ e231_viol line j)) := by
  constructor
  · rintro ⟨h1, h2, h3⟩
    refine ⟨by omega, h2, fun j hj1 hj2 => ?_⟩
    rcases Nat.eq_or_lt_of_le hj1 with he | h
    · exact he ▸ hvk
    · exact h3 j (by omega) hj2
  · rintro ⟨h1, h2, h3⟩
    have hne : i ≠ k := fun he => hvk (he ▸ h2)
    exact ⟨by omega, h2, fun j hj1 hj2 => h3 j (by omega) hj2⟩

theorem mw_aux_spec (line : Str) : ∀ (suffix : Str) (k : Nat), line.drop k = suffix →
    ((∀ i m, mw_aux line k suffix = some (i, m) ↔
        (k ≤ i ∧ e231_viol line i ∧ (∀ j, k ≤ j → j < i → ¬ e231_viol line j) ∧
          m = e231_msg (line.getD i ' '))) ∧
      (mw_aux line k suffix = none ↔ ∀ i, k ≤ i → ¬ e231_viol line i)) := by
  intro suffix
  induction suffix with
  | nil =>
    intro k hk
    have hlen : line.length ≤ k := by
      have h := congrArg List.length hk
      simp [List.length_drop] at h
      omega
    have hnov : ∀ i, k ≤ i → ¬ e231_viol line i := fun i hi hv => by
      have := hv.1; omega
    constructor
    · intro i m
      exact iff_of_false (by simp [mw_aux]) (fun h => hnov i h.1 h.2.1)
    · exact iff_of_true rfl hnov
  | cons x tail ih =>
    intro k hk
    match tail, ih with
    | [], _ =>
      have hlen : line.length = k + 1 := by
        have h := congrArg List.length hk
        simp [List.length_drop] at h
        have h2 : ¬ line.length ≤ k := fun hle => by
          rw [List.drop_eq_nil_of_le hle] at hk; exact List.noConfusion hk
        omega
      have hnov : ∀ i, k ≤ i → ¬ e231_viol line i := fun i hi hv => by
        have := hv.1; omega
      constructor
      · intro i m
        exact iff_of_false (by simp [mw_aux]) (fun h => hnov i h.1 h.2.1)
      · exact iff_of_true rfl hnov
    | y :: t, ih =>
      have hk1 : line.drop (k + 1) = y :: t := by
        have h1 : line.drop (k + 1) = (line.drop k).drop 1 := by
          rw [List.drop_drop]
        rw [h1, hk]; rfl
      have hx : line.getD k ' ' = x := by rw [← getD_zero_drop, hk]; rfl
      have hy : line.getD (k + 1) ' ' = y := by rw [← getD_zero_drop, hk1]; rfl
      have hlen : line.length = k + 2 + t.length := by
        have h := congrArg List.length hk
        simp [List.length_drop] at h
        have h2 : ¬ line.length ≤ k := fun hle => by
          rw [List.drop_eq_nil_of_le hle] at hk; exact List.noConfusion hk
        omega
      have hklt : k + 1 < line.length := by omega
      have spec1 := ih (k + 1) hk1
      by_cases hA : (x = ',' ∨ x = ';' ∨ x = ':') ∧ ¬(y = ' ' ∨ y = '\t')
      · by_cases hB : x = ':' ∧ (line.take k).count '[' > (line.take k).count ']'
        · -- slice colon: continue
          have hvk : ¬ e231_viol line k := fun hv => hv.2.2.2.1 (by rw [hx]; exact hB)
          have heq : mw_aux line k (x :: y :: t) = mw_aux line (k + 1) (y :: t) := by
            simp only [mw_aux, if_pos hA, if_pos hB]
          constructor
          · intro i m
            rw [heq, (spec1.1 i m)]
            constructor
            · rintro ⟨h1, h2, h3, h4⟩
              obtain ⟨g1, g2, g3⟩ := (e231_viol_shift line k hvk i).mp ⟨h1, h2, h3⟩
              exact ⟨g1, g2, g3, h4⟩
            · rintro ⟨h1, h2, h3, h4⟩
              obtain ⟨g1, g2, g3⟩ := (e231_viol_shift line k hvk i).mpr ⟨h1, h2, h3⟩
              exact ⟨g1, g2, g3, h4⟩
          · rw [heq, spec1.2]
            constructor
            · intro h i hi
              rcases Nat.eq_or_lt_of_le hi with he | hlt
              · exact he ▸ hvk
              · exact h i (by omega)
            · intro h i hi
              exact h i (by omega)
        · by_cases hC : x = ',' ∧ (y = ')' ∨ y = ']')
          · -- one-element tuple comma: continue
            have hvk : ¬ e231_viol line k := fun hv =>
              hv.2.2.2.2 (by rw [hx, hy]; exact hC)
            have heq : mw_aux line k (x :: y :: t) = mw_aux line (k + 1) (y :: t) := by
              simp only [mw_aux, if_pos hA, if_neg hB, if_pos hC]
            constructor
            · intro i m
              rw [heq, (spec1.1 i m)]
              constructor
              · rintro ⟨h1, h2, h3, h4⟩
                obtain ⟨g1, g2, g3⟩ := (e231_viol_shift line k hvk i).mp ⟨h1, h2, h3⟩
                exact ⟨g1, g2, g3, h4⟩
              · rintro ⟨h1, h2, h3, h4⟩
                obtain ⟨g1, g2, g3⟩ := (e231_viol_shift line k hvk i).mpr ⟨h1, h2, h3⟩
                exact ⟨g1, g2, g3, h4⟩
            · rw [heq, spec1.2]
              constructor
              · intro h i hi
                rcases Nat.eq_or_lt_of_le hi with he | hlt
                · exact he ▸ hvk
                · exact h i (by omega)
              · intro h i hi
                exact h i (by omega)
          · -- violation found at k
            have hvk : e231_viol line k := by
              refine ⟨hklt, by rw [hx]; exact hA.1, by rw [hy]; exact hA.2, ?_, ?_⟩
              · rw [hx]; exact hB
              · rw [hx, hy]; exact hC
            have heq : mw_aux line k (x :: y :: t) = some (k, e231_msg x) := by
              simp only [mw_aux, if_pos hA, if_neg hB, if_neg hC]
            constructor
            · intro i m
              rw [heq]
              constructor
              · intro h
                obtain ⟨he1, he2⟩ : k = i ∧ e231_msg x = m := by simpa using h
                refine ⟨?_, ?_, ?_, ?_⟩
                · omega
                · exact he1 ▸ hvk
                · intro j hj1 hj2; omega
                · rw [← he2, ← he1, hx]
              · rintro ⟨h1, h2, h3, h4⟩
                have hik : i = k := by
                  by_contra hne
                  exact h3 k (le_refl k) (by omega) hvk
                subst hik
                rw [h4, hx]
            · rw [heq]
              exact iff_of_false (by simp) (fun h => h k (le_refl k) hvk)
      · -- the character pair is not a candidate: continue
        have hvk : ¬ e231_viol line k := fun hv =>
          hA ⟨by rw [← hx]; exact hv.2.1, by rw [← hy]; exact hv.2.2.1⟩
        have heq : mw_aux line k (x :: y :: t) = mw_aux line (k + 1) (y :: t) := by
          simp only [mw_aux, if_neg hA]
        constructor
        · intro i m
          rw [heq, (spec1.1 i m)]
          constructor
          · rintro ⟨h1, h2, h3, h4⟩
            obtain ⟨g1, g2, g3⟩ := (e231_viol_shift line k hvk i).mp ⟨h1, h2, h3⟩
            exact ⟨g1, g2, g3, h4⟩
          · rintro ⟨h1, h2, h3, h4⟩
            obtain ⟨g1, g2, g3⟩ := (e231_viol_shift line k hvk i).mpr ⟨h1, h2, h3⟩
            exact ⟨g1, g2, g3, h4⟩
        · rw [heq, spec1.2]
          constructor
          · intro h i hi
            rcases Nat.eq_or_lt_of_le hi with he | hlt
            · exact he ▸ hvk
            · exact h i (by omega)
          · intro h i hi
            exact h i (by omega)

/-! ## Theorems for C1 and C2 -/

/-- C1 counterexample: with `select = ["E9"]` and `ignore = []`, the code
`"E1"` is reported by `ignore_code` (it returns `false`), yet the claim's
characterization says it is suppressed, because `select` is non-empty and no
`select` prefix matches. So the claimed iff is false at this input. -/
theorem c1_counterexample :
    ignore_code ["E9".data] [] "E1".data = false ∧
      ¬ c1_spec_reported ["E9".data] [] "E1".data := by
  constructor
  · decide
  · intro h
    rcases h with h | h
    · revert h; decide
    · exact absurd h.1 (by decide)

/-- C1 (amended): `ignore_code` classifies a code as reported iff some prefix
in `select` is a prefix of the code, or no prefix in `ignore` is a prefix of
the code; in particular a select match always overrides any ignore match. -/
theorem c1_ignore_code_reported_iff (select ignore : List Str) (code : Str) :
    ignore_code select ignore code = false ↔
      ((∃ s ∈ select, s.isPrefixOf code = true) ∨
        (∀ i ∈ ignore, ¬ i.isPrefixOf code = true)) := by
  unfold ignore_code
  by_cases h : select.any (fun s => s.isPrefixOf code) = true
  · rw [if_pos h]
    exact iff_of_true rfl (Or.inl (by simpa [List.any_eq_true] using h))
  · rw [if_neg h]
    constructor
    · intro hig
      refine Or.inr fun i hi hpre => ?_
      have hall : ignore.any (fun i => i.isPrefixOf code) = true :=
        List.any_eq_true.mpr ⟨i, hi, hpre⟩
      simp [hall] at hig
    · rintro (⟨s, hs, hpre⟩ | hign)
      · exact absurd (List.any_eq_true.mpr ⟨s, hs, hpre⟩) h
      · apply Bool.eq_false_iff.mpr
        intro hany
        obtain ⟨i, hi, hpre⟩ := List.any_eq_true.mp hany
        exact hign i hi hpre

/-- C2 counterexample: reporting an `E231` violation while `ignore = ["E2"]`
leaves the state completely unchanged — in particular the per-code counter is
not incremented and no message text is recorded, contradicting the claim that
suppression affects reporting only and never the internal counts. -/
theorem c2_counterexample :
    report_error c2_opts "f.py".data [] [] err_state0 1 0 0
        "E231 missing whitespace".data [] = err_state0 ∧
      alist_get (report_error c2_opts "f.py".data [] [] err_state0 1 0 0
        "E231 missing whitespace".data []).counters "E231".data = none := by
  constructor <;> decide

/-- C2 (amended): a violation whose code is suppressed by the ignore/select
filters is neither printed nor counted nor recorded: `report_error` returns
immediately with the state unchanged. -/
theorem c2_suppressed_unchanged (opts : Options) (filename : Str)
    (expected : List Str) (lines : List Str) (st : ErrState)
    (line_number line_offset offset : Nat) (text check_doc : Str)
    (h : ignore_code opts.select opts.ignore (text.take 4) = true) :
    report_error opts filename expected lines st line_number line_offset offset
      text check_doc = st := by
  unfold report_error
  simp [h]

/-- C2 witness: the amended theorem applied at a concrete suppressed violation
on a non-trivial state. -/
theorem c2_suppressed_unchanged_witness :
    report_error c2_opts "f.py".data [] [] ⟨[("E501".data, 2)], [], 1, []⟩ 3 0 7
        "E231 missing whitespace".data [] = ⟨[("E501".data, 2)], [], 1, []⟩ :=
  c2_suppressed_unchanged c2_opts "f.py".data [] [] ⟨[("E501".data, 2)], [], 1, []⟩
    3 0 7 "E231 missing whitespace".data [] (by decide)

/-! ## Theorems for C6 and C8 -/

/-- C6: `missing_whitespace.check` returns E231 exactly at the first index
holding a `,` `;` or `:` not followed by a space or tab, excluding slice
colons (more `[` than `]` before the colon) and commas directly before a
closing `)` or `]`; it returns nothing when no such index exists. -/
theorem c6_missing_whitespace_first (line : Str) :
    (∀ i m, missing_whitespace_check line = some (i, m) ↔
        (e231_viol line i ∧ (∀ j, j < i → ¬ e231_viol line j) ∧
          m = e231_msg (line.getD i ' '))) ∧
      (missing_whitespace_check line = none ↔ ∀ i, ¬ e231_viol line i) := by
  have h := mw_aux_spec line line 0 rfl
  constructor
  · intro i m
    rw [missing_whitespace_check, h.1 i m]
    constructor
    · rintro ⟨_, h2, h3, h4⟩
      exact ⟨h2, fun j hj => h3 j (Nat.zero_le j) hj, h4⟩
    · rintro ⟨h2, h3, h4⟩
      exact ⟨Nat.zero_le i, h2, fun j _ hj => h3 j hj, h4⟩
  · rw [missing_whitespace_check, h.2]
    exact ⟨fun hh i => hh i (Nat.zero_le i), fun hh i _ => hh i⟩

/-- C6 witness: on `foo(bar,baz)` the check fires at index 7, the comma not
followed by whitespace; applied through the claim theorem. -/
theorem c6_missing_whitespace_witness :
    missing_whitespace_check "foo(bar,baz)".data = some (7, e231_msg ',') :=
  ((c6_missing_whitespace_first "foo(bar,baz)".data).1 7 (e231_msg ',')).mpr
    ⟨by decide, by decide, by decide⟩

/-- C8: `expand_indent` scans only the leading run of spaces and tabs (first
conjunct), a space adds one and a tab advances the running total to the next
multiple of `TAB_SIZE` — the least multiple strictly greater (middle
conjuncts) — and `check_logical` applies it to the prefix of the first
contributing token's source line before its start column (last conjunct). -/
theorem c8_expand_indent_correct :
    (∀ line : Str, expand_indent line = expand_indent (line.takeWhile isIndentChar)) ∧
    (∀ (r : Nat) (cs : Str), expand_indent_aux r (' ' :: cs) = expand_indent_aux (r + 1) cs) ∧
    (∀ (r : Nat) (cs : Str), expand_indent_aux r ('\t' :: cs) =
        expand_indent_aux (r / TAB_SIZE * TAB_SIZE + TAB_SIZE) cs) ∧
    (∀ (r : Nat) (cs : Str) (c : Char), isIndentChar c = false →
        expand_indent_aux r (c :: cs) = r) ∧
    (∀ r : Nat, r < r / TAB_SIZE * TAB_SIZE + TAB_SIZE ∧
        (r / TAB_SIZE * TAB_SIZE + TAB_SIZE) % TAB_SIZE = 0 ∧
        ∀ m, r < m → m % TAB_SIZE = 0 → r / TAB_SIZE * TAB_SIZE + TAB_SIZE ≤ m) ∧
    (∀ (lines : List Str) (o : Nat) (t0 : Tok) (rest : List (Nat × Tok)),
        check_logical_indent lines ((o, t0) :: rest) =
          expand_indent ((pyGet lines (t0.startRow - 1)).take t0.startCol)) := by
  refine ⟨fun line => expand_indent_aux_takeWhile line 0,
    expand_indent_aux_space, expand_indent_aux_tab, expand_indent_aux_other,
    fun r => ?_, fun lines o t0 rest => rfl⟩
  simp only [TAB_SIZE]
  refine ⟨by omega, by omega, fun m h1 h2 => by omega⟩

/-- C8 witness: the stop-at-non-indent and the least-multiple facts of the
claim theorem at concrete inputs (`expand_indent_aux 5 "x" = 5`, and the tab
step from 6 is at most 8). -/
theorem c8_expand_indent_witness :
    expand_indent_aux 5 ['x'] = 5 ∧ 6 / TAB_SIZE * TAB_SIZE + TAB_SIZE ≤ 8 :=
  ⟨c8_expand_indent_correct.2.2.2.1 5 [] 'x' (by decide),
    (c8_expand_indent_correct.2.2.2.2.1 6).2.2 8 (by decide) (by decide)⟩

/-! ## Theorem for C10 -/

/-- C10: a physical line whose right-stripped bytes exceed the limit but
decode as UTF-8 to at most `MAX_LINE_LENGTH` characters yields no E501; and
whenever E501 is returned, the offset is `MAX_LINE_LENGTH` and — for a line
that decodes — the reported length is the decoded character count. -/
theorem c10_maximum_line_length (physical_line : List Nat) (cps : List Nat) :
    (utf8_decode (rstrip_bytes physical_line) = some cps →
      cps.length ≤ MAX_LINE_LENGTH → maximum_line_length_check physical_line = none) ∧
    (∀ off msg, maximum_line_length_check physical_line = some (off, msg) →
      off = MAX_LINE_LENGTH ∧
        (utf8_decode (rstrip_bytes physical_line) = some cps →
          msg = "E501 line too long (".data ++ natStr cps.length ++ " characters)".data)) := by
  constructor
  · intro hdec hle
    have hlen : mll_length (rstrip_bytes physical_line) ≤ MAX_LINE_LENGTH := by
      unfold mll_length
      by_cases h1 : (rstrip_bytes physical_line).length > MAX_LINE_LENGTH
      · rw [if_pos h1, hdec]; exact hle
      · rw [if_neg h1]; omega
    unfold maximum_line_length_check
    rw [if_neg (by omega)]
  · intro off msg h
    unfold maximum_line_length_check at h
    by_cases h1 : mll_length (rstrip_bytes physical_line) > MAX_LINE_LENGTH
    · rw [if_pos h1] at h
      have hp := Option.some.inj h
      have ho : MAX_LINE_LENGTH = off := congrArg Prod.fst hp
      have hm : "E501 line too long (".data ++
          natStr (mll_length (rstrip_bytes physical_line)) ++ " characters)".data = msg :=
        congrArg Prod.snd hp
      refine ⟨ho.symm, fun hdec2 => ?_⟩
      have hmll : mll_length (rstrip_bytes physical_line) = cps.length := by
        unfold mll_length at h1 ⊢
        by_cases h2 : (rstrip_bytes physical_line).length > MAX_LINE_LENGTH
        · rw [if_pos h2] at h1 ⊢
          rw [hdec2]
        · rw [if_neg h2] at h1 ⊢
          omega
      rw [← hm, hmll]
    · rw [if_neg h1] at h
      exact Option.noConfusion h

set_option maxRecDepth 100000 in
/-- C10 witness: 61 two-byte characters (122 bytes, 61 characters) give no
E501; 121 ASCII bytes give E501 at offset 120; both via the claim theorem. -/
theorem c10_maximum_line_length_witness :
    maximum_line_length_check ((List.replicate 61 [0xC3, 0xA9]).flatten) = none ∧
    (120 : Nat) = MAX_LINE_LENGTH := by
  constructor
  · exact (c10_maximum_line_length ((List.replicate 61 [0xC3, 0xA9]).flatten)
      (List.replicate 61 0xE9)).1 (by decide) (by decide)
  · exact ((c10_maximum_line_length (List.replicate 121 97) (List.replicate 121 97)).2
      120 ("E501 line too long (".data ++ natStr 121 ++ " characters)".data) (by decide)).1

/-! ## Theorems for C7 -/

theorem pyFind_spec (needle : Str) : ∀ l : Str,
    (∀ p, pyFind needle l = some p ↔
        (needle.isPrefixOf (l.drop p) = true ∧
          ∀ q, q < p → needle.isPrefixOf (l.drop q) = false)) ∧
    (pyFind needle l = none ↔ ∀ q, needle.isPrefixOf (l.drop q) = false) := by
  intro l
  induction l with
  | nil =>
    cases needle with
    | nil =>
      constructor
      · intro p
        constructor
        · intro h
          have hp : (0 : Nat) = p := Option.some.inj h
          subst hp
          exact ⟨rfl, fun q hq => absurd hq (by omega)⟩
        · rintro ⟨h1, h2⟩
          rcases Nat.eq_zero_or_pos p with rfl | hp
          · rfl
          · exact absurd (h2 0 hp) (by decide)
      · constructor
        · intro h; exact Option.noConfusion h
        · intro hall; exact absurd (hall 0) (by decide)
    | cons a nt =>
      constructor
      · intro p
        refine iff_of_false (fun h => Option.noConfusion h) (fun h => ?_)
        have h1 := h.1
        rw [show (([] : Str).drop p) = [] from by simp] at h1
        exact Bool.noConfusion h1
      · refine iff_of_true rfl (fun q => ?_)
        rw [show (([] : Str).drop q) = [] from by simp]
        rfl
  | cons h t ih =>
    by_cases hpre : needle.isPrefixOf (h :: t) = true
    · constructor
      · intro p
        rw [show pyFind needle (h :: t) = some 0 from by
          simp only [pyFind, if_pos hpre]]
        constructor
        · intro he
          have hp : (0 : Nat) = p := Option.some.inj he
          subst hp
          exact ⟨hpre, fun q hq => absurd hq (by omega)⟩
        · rintro ⟨h1, h2⟩
          rcases Nat.eq_zero_or_pos p with rfl | hp
          · rfl
          · have hz := h2 0 hp
            rw [List.drop_zero, hpre] at hz
            exact Bool.noConfusion hz
      · rw [show pyFind needle (h :: t) = some 0 from by
          simp only [pyFind, if_pos hpre]]
        refine iff_of_false (fun hh => Option.noConfusion hh) (fun hall => ?_)
        have hz := hall 0
        rw [List.drop_zero, hpre] at hz
        exact Bool.noConfusion hz
    · have hpre' : needle.isPrefixOf (h :: t) = false := Bool.eq_false_iff.mpr hpre
      have hunf : pyFind needle (h :: t) = (pyFind needle t).map (· + 1) := by
        simp only [pyFind, if_neg hpre]
      constructor
      · intro p
        rw [hunf, Option.map_eq_some']
        constructor
        · rintro ⟨p', hfind, rfl⟩
          obtain ⟨g1, g2⟩ := (ih.1 p').mp hfind
          refine ⟨by rw [List.drop_succ_cons]; exact g1, fun q hq => ?_⟩
          cases q with
          | zero => rw [List.drop_zero]; exact hpre'
          | succ q' =>
            rw [List.drop_succ_cons]
            exact g2 q' (by omega)
        · rintro ⟨h1, h2⟩
          cases p with
          | zero =>
            rw [List.drop_zero] at h1
            exact absurd h1 hpre
          | succ p' =>
            refine ⟨p', (ih.1 p').mpr ⟨?_, fun q hq => ?_⟩, rfl⟩
            · rw [List.drop_succ_cons] at h1; exact h1
            · have hz := h2 (q + 1) (by omega)
              rw [List.drop_succ_cons] at hz
              exact hz
      · rw [hunf, Option.map_eq_none', ih.2]
        constructor
        · intro hall q
          cases q with
          | zero => rw [List.drop_zero]; exact hpre'
          | succ q' =>
            rw [List.drop_succ_cons]
            exact hall q'
        · intro hall q
          have hz := hall (q + 1)
          rw [List.drop_succ_cons] at hz
          exact hz

/-- C7 counterexample: three of the four deprecated-construct rules offer no
fix operation at all (their classes define no `fix` method), contradicting
the claim that each of the four offers one. -/
theorem c7_counterexample :
    python_3000_has_key.fix = none ∧ python_3000_not_equal.fix = none ∧
      python_3000_backticks.fix = none :=
  ⟨rfl, rfl, rfl⟩

/-- C7 (amended): each of the four deprecated-construct rules detects its
construct by a direct substring or regex match on the logical line — W601,
W603 and W604 fire exactly at the first occurrence of their substring, W602
exactly when the anchored raise-comma regex matches — but only W602 offers a
fix, which rewrites the two-argument raise into a call by textual
substitution. -/
theorem c7_deprecated_rules (l : Str) :
    (∀ p m, python_3000_has_key.check l = some (p, m) ↔
        (".has_key(".data.isPrefixOf (l.drop p) = true ∧
          (∀ q, q < p → ".has_key(".data.isPrefixOf (l.drop q) = false) ∧ m = w601_msg)) ∧
    (∀ p m, python_3000_not_equal.check l = some (p, m) ↔
        (['<', '>'].isPrefixOf (l.drop p) = true ∧
          (∀ q, q < p → ['<', '>'].isPrefixOf (l.drop q) = false) ∧ m = w603_msg)) ∧
    (∀ p m, python_3000_backticks.check l = some (p, m) ↔
        ([bquote].isPrefixOf (l.drop p) = true ∧
          (∀ q, q < p → [bquote].isPrefixOf (l.drop q) = false) ∧ m = w604_msg)) ∧
    (∀ p m, python_3000_raise_comma.check l = some (p, m) ↔
        (∃ g1 g2 rest, raise_comma_match l = some (p, g1, g2, rest) ∧ m = w602_msg)) ∧
    python_3000_raise_comma.fix = some raise_comma_sub ∧
    (∀ p g1 g2, raise_comma_match l = some (p, g1, g2, []) →
      raise_comma_sub l = "raise ".data ++ g1 ++ ['('] ++ g2 ++ [')']) := by
  refine ⟨?_, ?_, ?_, ?_, rfl, ?_⟩
  · intro p m
    have hk := pyFind_spec ".has_key(".data l
    show (pyFind ".has_key(".data l).map (fun pos => (pos, w601_msg)) = some (p, m) ↔ _
    rw [Option.map_eq_some']
    constructor
    · rintro ⟨pos, hfind, heq⟩
      obtain ⟨h1, h2⟩ : pos = p ∧ w601_msg = m := by simpa using heq
      subst h1
      obtain ⟨g1, g2⟩ := (hk.1 pos).mp hfind
      exact ⟨g1, g2, h2.symm⟩
    · rintro ⟨h1, h2, rfl⟩
      exact ⟨p, (hk.1 p).mpr ⟨h1, h2⟩, rfl⟩
  · intro p m
    have hk := pyFind_spec ['<', '>'] l
    show (pyFind ['<', '>'] l).map (fun pos => (pos, w603_msg)) = some (p, m) ↔ _
    rw [Option.map_eq_some']
    constructor
    · rintro ⟨pos, hfind, heq⟩
      obtain ⟨h1, h2⟩ : pos = p ∧ w603_msg = m := by simpa using heq
      subst h1
      obtain ⟨g1, g2⟩ := (hk.1 pos).mp hfind
      exact ⟨g1, g2, h2.symm⟩
    · rintro ⟨h1, h2, rfl⟩
      exact ⟨p, (hk.1 p).mpr ⟨h1, h2⟩, rfl⟩
  · intro p m
    have hk := pyFind_spec [bquote] l
    show (pyFind [bquote] l).map (fun pos => (pos, w604_msg)) = some (p, m) ↔ _
    rw [Option.map_eq_some']
    constructor
    · rintro ⟨pos, hfind, heq⟩
      obtain ⟨h1, h2⟩ : pos = p ∧ w604_msg = m := by simpa using heq
      subst h1
      obtain ⟨g1, g2⟩ := (hk.1 pos).mp hfind
      exact ⟨g1, g2, h2.symm⟩
    · rintro ⟨h1, h2, rfl⟩
      exact ⟨p, (hk.1 p).mpr ⟨h1, h2⟩, rfl⟩
  · intro p m
    show (raise_comma_match l).map (fun r => (r.1, w602_msg)) = some (p, m) ↔ _
    rw [Option.map_eq_some']
    constructor
    · rintro ⟨⟨q, g1, g2, rest⟩, hr, heq⟩
      obtain ⟨h1, h2⟩ : q = p ∧ w602_msg = m := by simpa using heq
      subst h1
      exact ⟨g1, g2, rest, hr, h2.symm⟩
    · rintro ⟨g1, g2, rest, hr, rfl⟩
      exact ⟨(p, g1, g2, rest), hr, rfl⟩
  · intro p g1 g2 h
    have hpre : "raise".data.isPrefixOf l = true := by
      by_contra hn
      rw [Bool.not_eq_true] at hn
      unfold raise_comma_match at h
      rw [if_neg (by simp [hn])] at h
      exact Option.noConfusion h
    obtain ⟨c, rest, rfl⟩ : ∃ c rest, l = c :: rest := by
      cases l with
      | nil => exact absurd hpre (by decide)
      | cons c rest => exact ⟨c, rest, rfl⟩
    show raise_comma_sub_aux (c :: rest).length (c :: rest) = _
    rw [show (c :: rest).length = rest.length + 1 from rfl]
    simp only [raise_comma_sub_aux, h]
    rw [show raise_comma_sub_aux rest.length [] = [] from by cases rest.length <;> rfl]
    simp

/-- C7 witness: the detection characterization at a concrete `.has_key(` use,
and the W602 fix substitution at a concrete two-argument raise; both through
the claim theorem. -/
theorem c7_deprecated_rules_witness :
    python_3000_has_key.check "if d.has_key(k):".data = some (4, w601_msg) ∧
    raise_comma_sub "raise ValueError, x".data = "raise ValueError(x)".data := by
  constructor
  · exact ((c7_deprecated_rules "if d.has_key(k):".data).1 4 w601_msg).mpr
      ⟨by decide, by decide, rfl⟩
  · exact ((c7_deprecated_rules "raise ValueError, x".data).2.2.2.2.2 6
      "ValueError".data "x".data (by decide)).trans (by decide)

/-! ## Theorems for C3 and C4 -/

theorem pyRstrip_prefix (l : Str) : pyRstrip l <+: l := by
  apply List.reverse_suffix.mp
  rw [pyRstrip, List.reverse_reverse]
  exact List.dropWhile_suffix _

theorem pyLstrip_of_head (c : Char) (s : Str) (hc : pySpaceChar c = false) :
    pyLstrip (c :: s) = c :: s := by
  unfold pyLstrip
  rw [List.dropWhile_cons, if_neg (by simp [hc])]

theorem pyLstrip_pyRstrip_fix (s : Str) (h : s = [] ∨ pySpaceChar s.headI = false) :
    pyLstrip (pyRstrip s) = pyRstrip s := by
  cases s with
  | nil => rfl
  | cons c cs =>
    rcases h with h | h
    · exact List.noConfusion h
    · obtain ⟨u, hu⟩ := pyRstrip_prefix (c :: cs)
      cases hp : pyRstrip (c :: cs) with
      | nil => rfl
      | cons d ds =>
        rw [hp] at hu
        have hd : d = c := by
          rw [List.cons_append] at hu
          exact (List.cons.injEq d (ds ++ u) c cs ▸ hu).1
        subst hd
        exact pyLstrip_of_head d ds (by simpa using h)

theorem mute_start_pos (text : Str) : 1 ≤ mute_start text := by
  unfold mute_start
  split_ifs <;> omega

theorem mute_string_head (c : Char) (cs : Str) :
    ∃ rest, mute_string (c :: cs) = c :: rest := by
  have h1 : 1 ≤ mute_start (c :: cs) := mute_start_pos _
  unfold mute_string
  by_cases ht : mute_triple (c :: cs) = true
  · rw [if_pos ht]
    obtain ⟨m, hm⟩ : ∃ m, mute_start (c :: cs) + 2 = m + 1 := ⟨mute_start (c :: cs) + 1, rfl⟩
    rw [hm, List.take_succ_cons, List.cons_append, List.cons_append]
    exact ⟨_, rfl⟩
  · rw [if_neg ht]
    obtain ⟨m, hm⟩ : ∃ m, mute_start (c :: cs) = m + 1 := ⟨mute_start (c :: cs) - 1, by omega⟩
    rw [hm, List.take_succ_cons, List.cons_append, List.cons_append]
    exact ⟨_, rfl⟩

theorem build_step_logical (lines : List Str) (st : BuildState) (t : Tok) :
    ∃ ext, (build_step lines st t).logical = st.logical ++ ext := by
  unfold build_step
  by_cases h : t.type ∈ SKIP_TOKENS
  · rw [if_pos h]
    exact ⟨[], (List.append_nil _).symm⟩
  · rw [if_neg h]
    exact ⟨_, rfl⟩

theorem build_foldl_logical (lines : List Str) : ∀ (ts : List Tok) (st : BuildState),
    ∃ ext, (ts.foldl (build_step lines) st).logical = st.logical ++ ext := by
  intro ts
  induction ts with
  | nil => intro st; exact ⟨[], (List.append_nil _).symm⟩
  | cons t ts ih =>
    intro st
    obtain ⟨e1, he1⟩ := build_step_logical lines st t
    obtain ⟨e2, he2⟩ := ih (build_step lines st t)
    exact ⟨e1 ++ e2, by rw [List.foldl_cons, he2, he1, List.append_assoc]⟩

theorem build_fold_head (lines : List Str) : ∀ (ts : List Tok),
    (∀ tk ∈ ts, tk.type ∉ SKIP_TOKENS → tk.text ≠ [] ∧ pySpaceChar tk.text.headI = false) →
    ∀ st : BuildState, st.previous = none → st.logical = [] →
      ((ts.foldl (build_step lines) st).logical.flatten = [] ∨
        ((ts.foldl (build_step lines) st).logical.flatten ≠ [] ∧
          pySpaceChar (ts.foldl (build_step lines) st).logical.flatten.headI = false)) := by
  intro ts
  induction ts with
  | nil =>
    intro _ st _ hlog
    left
    rw [List.foldl_nil, hlog]
    rfl
  | cons t ts ih =>
    intro hgood st hprev hlog
    by_cases hskip : t.type ∈ SKIP_TOKENS
    · have hstep : build_step lines st t = st := by
        unfold build_step
        rw [if_pos hskip]
      rw [List.foldl_cons, hstep]
      exact ih (fun tk htk hns => hgood tk (List.mem_cons_of_mem t htk) hns) st hprev hlog
    · obtain ⟨hne, hhead⟩ := hgood t (List.mem_cons_self t ts) hskip
      obtain ⟨c, cs, hc⟩ : ∃ c cs, t.text = c :: cs := by
        cases hx : t.text with
        | nil => exact absurd hx hne
        | cons c cs => exact ⟨c, cs, rfl⟩
      have hstep : (build_step lines st t).logical =
          [[], if t.type = TokType.STRING then mute_string t.text else t.text] := by
        unfold build_step
        rw [if_neg hskip]
        simp only [hprev, hlog]
        rfl
      obtain ⟨rest, hrest⟩ :
          ∃ rest, (if t.type = TokType.STRING then mute_string t.text else t.text) =
            c :: rest := by
        by_cases hstr : t.type = TokType.STRING
        · rw [if_pos hstr, hc]
          exact mute_string_head c cs
        · rw [if_neg hstr, hc]
          exact ⟨cs, rfl⟩
      obtain ⟨ext, hext⟩ := build_foldl_logical lines ts (build_step lines st t)
      right
      rw [List.foldl_cons, hext, hstep, hrest]
      have hcc : pySpaceChar c = false := by
        rw [hc] at hhead
        simpa using hhead
      constructor
      · simp
      · simp [hcc]

/-- C3: for every token sequence whose kept (non-layout) tokens carry
non-empty texts not starting with whitespace — which is what the tokenizer
yields for any logical line — the logical line built by `build_tokens_line`
is already left-stripped, so the assertion `lstrip(text) == text` of
pep8.py line 1146 always holds. -/
theorem c3_build_tokens_line_lstrip (lines : List Str) (tokens : List Tok)
    (h : ∀ tk ∈ tokens, tk.type ∉ SKIP_TOKENS →
      tk.text ≠ [] ∧ pySpaceChar tk.text.headI = false) :
    pyLstrip (build_tokens_line lines tokens).logical_line =
      (build_tokens_line lines tokens).logical_line := by
  have hh := build_fold_head lines tokens h ⟨[], [], 0, none, []⟩ rfl rfl
  have hbe : (build_tokens_line lines tokens).logical_line =
      pyRstrip (tokens.foldl (build_step lines) ⟨[], [], 0, none, []⟩).logical.flatten := rfl
  rw [hbe]
  rcases hh with hnil | ⟨_, hhead⟩
  · rw [hnil]
    rfl
  · exact pyLstrip_pyRstrip_fix _ (Or.inr hhead)

/-- C3 witness: the claim theorem at the first logical line of the scenario
token stream. -/
theorem c3_build_tokens_line_lstrip_witness :
    pyLstrip (build_tokens_line scenario_lines (scenario_tokens.take 6)).logical_line =
      (build_tokens_line scenario_lines (scenario_tokens.take 6)).logical_line :=
  c3_build_tokens_line_lstrip scenario_lines (scenario_tokens.take 6) (by decide)

theorem open_brackets_mem (c : Char) :
    OPEN_BRACKETS.contains c = true ↔ (c = '{' ∨ c = '[' ∨ c = '(') := by
  simp [OPEN_BRACKETS]

theorem pyInStr_close_brackets (text : Str) (h1 : text ≠ []) (h2 : text ≠ ['}', ']'])
    (h3 : text ≠ [']', ')']) (h4 : text ≠ ['}', ']', ')']) :
    (pyInStr text CLOSE_BRACKETS = true) ↔ (text = [')'] ∨ text = [']'] ∨ text = ['}']) := by
  match text with
  | [] => exact absurd rfl h1
  | [a] =>
    have hcomp : pyInStr [a] CLOSE_BRACKETS =
        ((a == '}' && true) || ((a == ']' && true) || ((a == ')' && true) || false))) := rfl
    rw [hcomp]
    simp only [Bool.and_true, Bool.or_false, Bool.or_eq_true, beq_iff_eq]
    constructor
    · rintro (h | h | h)
      · exact Or.inr (Or.inr (by rw [h]))
      · exact Or.inr (Or.inl (by rw [h]))
      · exact Or.inl (by rw [h])
    · rintro (h | h | h)
      · injection h with ha
        exact Or.inr (Or.inr ha)
      · injection h with ha
        exact Or.inr (Or.inl ha)
      · injection h with ha
        exact Or.inl ha
  | [a, b] =>
    have hcomp : pyInStr [a, b] CLOSE_BRACKETS =
        ((a == '}' && (b == ']' && true)) || ((a == ']' && (b == ')' && true)) ||
          ((a == ')' && false) || false))) := rfl
    refine iff_of_false (fun h => ?_) (fun h => ?_)
    · rw [hcomp] at h
      simp only [Bool.and_true, Bool.and_false, Bool.or_false, Bool.or_eq_true,
        Bool.and_eq_true, beq_iff_eq] at h
      rcases h with ⟨ha, hb⟩ | ⟨ha, hb⟩
      · exact h2 (by rw [ha, hb])
      · exact h3 (by rw [ha, hb])
    · rcases h with h | h | h <;> simp at h
  | [a, b, c] =>
    have hcomp : pyInStr [a, b, c] CLOSE_BRACKETS =
        ((a == '}' && (b == ']' && (c == ')' && true))) || ((a == ']' && (b == ')' && false)) ||
          ((a == ')' && false) || false))) := rfl
    refine iff_of_false (fun h => ?_) (fun h => ?_)
    · rw [hcomp] at h
      simp only [Bool.and_true, Bool.and_false, Bool.or_false, Bool.or_eq_true,
        Bool.and_eq_true, beq_iff_eq] at h
      obtain ⟨ha, hb, hc⟩ := h
      exact h4 (by rw [ha, hb, hc])
    · rcases h with h | h | h <;> simp at h
  | a :: b :: c :: d :: t =>
    have hcomp : pyInStr (a :: b :: c :: d :: t) CLOSE_BRACKETS =
        ((a == '}' && (b == ']' && (c == ')' && false))) || ((a == ']' && (b == ')' && false)) ||
          ((a == ')' && false) || false))) := rfl
    refine iff_of_false (fun h => ?_) (fun h => ?_)
    · rw [hcomp] at h
      simp at h
    · rcases h with h | h | h <;> simp at h

/-- C4: between two consecutive kept tokens on different source rows,
`build_tokens_line` inserts exactly one space iff the source character just
before the preceding token's end is a comma, or that character is not an
opening bracket and the following token's (possibly muted) text is not a
closing bracket; on the same row it copies the exact original inter-token
text from the source line. The hypotheses exclude the token texts `""`,
`"}]"`, `"])"` and `"}])"`, which no tokenizer emits, and on which the
Python substring test `text in '}])'` and the claim's is-a-closing-bracket
test differ. -/
theorem c4_join_sep_cases (lines : List Str) (p t : Tok) (text : Str)
    (h1 : text ≠ []) (h2 : text ≠ ['}', ']']) (h3 : text ≠ [']', ')'])
    (h4 : text ≠ ['}', ']', ')']) :
    (p.endRow ≠ t.startRow →
      join_sep lines p t text =
        (if join_prev_char lines p = ',' ∨
            (join_prev_char lines p ≠ '{' ∧ join_prev_char lines p ≠ '[' ∧
              join_prev_char lines p ≠ '(' ∧
              text ≠ [')'] ∧ text ≠ [']'] ∧ text ≠ ['}'])
          then [' '] else [])) ∧
    (p.endRow = t.startRow →
      join_sep lines p t text =
        ((pyGet lines (p.endRow - 1)).drop p.endCol).take (t.startCol - p.endCol)) := by
  constructor
  · intro hrow
    unfold join_sep
    rw [if_pos hrow]
    have hcd : (join_prev_char lines p = ',' ∨
        (¬ (OPEN_BRACKETS.contains (join_prev_char lines p) = true) ∧
          ¬ (pyInStr text CLOSE_BRACKETS = true))) ↔
        (join_prev_char lines p = ',' ∨
          (join_prev_char lines p ≠ '{' ∧ join_prev_char lines p ≠ '[' ∧
            join_prev_char lines p ≠ '(' ∧
            text ≠ [')'] ∧ text ≠ [']'] ∧ text ≠ ['}'])) := by
      rw [open_brackets_mem, pyInStr_close_brackets text h1 h2 h3 h4]
      constructor
      · rintro (h | ⟨ho, hc⟩)
        · exact Or.inl h
        · push_neg at ho hc
          exact Or.inr ⟨ho.1, ho.2.1, ho.2.2, hc.1, hc.2.1, hc.2.2⟩
      · rintro (h | ⟨g1, g2, g3, g4, g5, g6⟩)
        · exact Or.inl h
        · refine Or.inr ⟨?_, ?_⟩
          · push_neg
            exact ⟨g1, g2, g3⟩
          · push_neg
            exact ⟨g4, g5, g6⟩
    exact if_congr hcd rfl rfl
  · intro hrow
    unfold join_sep
    rw [if_neg (by simp [hrow])]
    by_cases hc : p.endCol ≠ t.startCol
    · rw [if_pos hc]
    · rw [if_neg hc]
      rw [not_ne_iff] at hc
      rw [hc, Nat.sub_self, List.take_zero]

/-- C4 witness: the claim theorem at a trailing comma before a row break — a
single space is inserted. -/
theorem c4_join_sep_witness :
    join_sep ["x = (1,\n".data, "  2)\n".data]
      (mkTok TokType.OP "," 1 6 1 7 "x = (1,\n")
      (mkTok TokType.NUMBER "2" 2 2 2 3 "  2)\n") "2".data = [' '] := by
  have h := (c4_join_sep_cases ["x = (1,\n".data, "  2)\n".data]
    (mkTok TokType.OP "," 1 6 1 7 "x = (1,\n")
    (mkTok TokType.NUMBER "2" 2 2 2 3 "  2)\n") "2".data
    (by decide) (by decide) (by decide) (by decide)).1 (by decide)
  exact h.trans (by decide)

/-! ## Theorem for C5 -/

set_option maxRecDepth 400000 in
/-- C5: after the first line, a top-level (indent 0) logical line starting
with `def `, `class ` or `@` whose previous logical line is not a decorator
and which sees at most one effective blank line gets E302 at offset 0 with
the found count (first conjunct); on the concrete input
`def a():\n    pass\ndef b():\n    pass\n` the driver reports exactly one
violation — E302 found 0 at the `def b` line (row 3, column 0) — and the fix
pass writes the file back with exactly two blank lines inserted before
`def b` (remaining conjuncts). -/
theorem c5_blank_lines_e302 :
    (∀ ctx : BLCtx, ctx.line_number ≠ 1 → ctx.indent_level = 0 →
      ("def ".data.isPrefixOf ctx.logical_line = true ∨
        "class ".data.isPrefixOf ctx.logical_line = true ∨
        "@".data.isPrefixOf ctx.logical_line = true) →
      "@".data.isPrefixOf ctx.previous_logical = false →
      max ctx.blank_lines ctx.blank_lines_before_comment ≤ 1 →
      blank_lines_check ctx =
        some (0, "E302 expected 2 blank lines, found ".data ++
          natStr (max ctx.blank_lines ctx.blank_lines_before_comment))) ∧
    (check_all_bl scenario_lines scenario_tokens init_state).violations =
      [(3, 0, "E302 expected 2 blank lines, found 0".data)] ∧
    (check_all_bl scenario_lines scenario_tokens init_state).writer =
      "def a():\n    pass\n\n\ndef b():\n    pass\n".data := by
  refine ⟨?_, by decide, by decide⟩
  intro ctx h1 h2 h3 h4 h5
  unfold blank_lines_check
  rw [if_neg h1]
  rw [if_neg (by rw [h4]; exact Bool.false_ne_true)]
  rw [if_neg (by
    rintro (h | ⟨hi, -⟩)
    · omega
    · exact hi h2)]
  rw [if_pos h3]
  rw [if_neg (by simp [h2])]
  rw [if_pos (by omega)]

/-- C5 witness: the first conjunct of the claim theorem at a concrete
top-level `class` line seeing one blank line. -/
theorem c5_blank_lines_e302_witness :
    blank_lines_check ⟨"class C:".data, 1, 0, 2, "x = 1".data, 0, 0⟩ =
      some (0, "E302 expected 2 blank lines, found 1".data) :=
  (c5_blank_lines_e302.1 ⟨"class C:".data, 1, 0, 2, "x = 1".data, 0, 0⟩
    (by decide) rfl (Or.inr (Or.inl (by decide))) (by decide) (by decide)).trans (by decide)

end Pep8
